import Mathlib

/-!
Verification of the Loup-garou session state machine.

Shallow embedding of `lg_app/services/game_engine.py`, `roles.py`,
`utils.py` and the dispatcher layer of `agent_runtime.py`.

Modelling conventions:
* Python objects are mutated in place; every embedded operation therefore
  returns the state of the `Game` object after the call **together** with
  the outcome, `Except.ok v` for a normal return and `Except.error msg`
  for a raised `GameStateError`/`AgentToolError` carrying the same message.
  In particular the returned `Game` of an erroring call is the (possibly
  partially mutated) object the Python caller is left with.
* `Optional[str]` fields are `Option String`; Python truthiness of such a
  value (`if x:`) is `pyTruthy` (false on `None` and on the empty string).
* The `Game` record keeps the fields the state machine reads or writes
  (`code`, `phase`, `players`, `last_killed`, `potions`).  The remaining
  pydantic fields (`created_at`, `history`, `chat_history`) are only ever
  appended to by the storage layer, never read or written by any function
  embedded here, so they are projected away.
* Persistence (`db.upsert_game`, `db.set_phase`) followed by
  `context.reload_game()` returns exactly the state that was written, so
  the dispatcher tools are embedded as pure state transformers; event
  logging (`db.log_event`) only appends to the projected-away `history`.
-/

/-- `PotionState` from `schemas.py`. -/
structure PotionState where
  heal_used : Bool
  poison_used : Bool
deriving Repr, DecidableEq

/-- `Player` from `schemas.py`. -/
structure Player where
  id : String
  name : String
  role : String
  status : String
deriving Repr, DecidableEq

/-- `Game` from `schemas.py`, restricted to the fields the state machine
touches (see the module docstring). -/
structure Game where
  code : String
  phase : String
  players : List Player
  last_killed : Option String
  potions : PotionState
deriving Repr, DecidableEq

instance {ε α : Type} [DecidableEq ε] [DecidableEq α] : DecidableEq (Except ε α) := fun a b =>
  match a, b with
  | Except.error x, Except.error y =>
      if h : x = y then isTrue (by rw [h])
      else isFalse (fun hc => h (by cases hc; rfl))
  | Except.error _, Except.ok _ => isFalse (fun hc => by cases hc)
  | Except.ok _, Except.error _ => isFalse (fun hc => by cases hc)
  | Except.ok x, Except.ok y =>
      if h : x = y then isTrue (by rw [h])
      else isFalse (fun hc => h (by cases hc; rfl))

/-- Python truthiness of an `Optional[str]` value: `None` and `""` are falsy. -/
def pyTruthy : Option String → Bool
  | none => false
  | some s => !(s == "")

/-- `db.create_game` builds `Game(code=code)` with pydantic defaults. -/
def initGame (code : String) : Game :=
  { code := code
    phase := "lobby"
    players := []
    last_killed := none
    potions := { heal_used := false, poison_used := false } }

/-- `_get_player`: first player whose `id` matches (its raising wrapper is
inlined as a `match` on `none` at each call site). -/
def getPlayer? (g : Game) (player_id : String) : Option Player :=
  g.players.find? (fun p => p.id == player_id)

/-- Set the status of the first player with the given id to `"dead"` —
the effect of `target.status = "dead"` on the object `_get_player` returned. -/
def killFirst : List Player → String → List Player
  | [], _ => []
  | p :: rest, pid =>
      if p.id == pid then { p with status := "dead" } :: rest
      else p :: killFirst rest pid

/-- `utils.alive_players`. -/
def alive_players (players : List Player) : List Player :=
  players.filter (fun p => p.status == "alive")

/-- `utils.find_player_by_name`: case-insensitive, whitespace-trimmed. -/
def find_player_by_name (players : List Player) (name : String) : Option Player :=
  let target := name.trim.toLower
  players.find? (fun p => p.name.trim.toLower == target)

/-- `game_engine.seer_peek`. -/
def seer_peek (g : Game) (target_player_id : String) :
    Game × Except String String :=
  if g.phase != "night_seer" then
    (g, Except.error "Ce n'est pas le tour de la voyante.")
  else
    match getPlayer? g target_player_id with
    | none => (g, Except.error "Joueur introuvable.")
    | some target =>
        if target.status != "alive" then
          (g, Except.error "Cette action nécessite un joueur vivant.")
        else
          ({ g with phase := "night_wolves" }, Except.ok target.role)

/-- `game_engine.wolves_vote`. -/
def wolves_vote (g : Game) (target_player_id : String) :
    Game × Except String String :=
  if g.phase != "night_wolves" then
    (g, Except.error "Ce n'est pas le tour des loups-garous.")
  else
    match getPlayer? g target_player_id with
    | none => (g, Except.error "Joueur introuvable.")
    | some target =>
        if target.status != "alive" then
          (g, Except.error "Cette action nécessite un joueur vivant.")
        else
          ({ g with last_killed := some target.id, phase := "night_witch" },
           Except.ok target.id)

/-- Lines 91–96 of `game_engine.witch_action`: the second finalisation kill
(`if game.last_killed: …`), the clearing of `last_killed` and the phase
transition to `day`. -/
def witch_final2 (g : Game) (killed_id : Option String) :
    Game × Except String (Option String) :=
  if pyTruthy g.last_killed then
    match getPlayer? g (g.last_killed.getD "") with
    | none => (g, Except.error "Joueur introuvable.")
    | some _ =>
        let g1 := { g with players := killFirst g.players (g.last_killed.getD "") }
        ({ g1 with last_killed := none, phase := "day" }, Except.ok killed_id)
  else
    ({ g with last_killed := none, phase := "day" }, Except.ok killed_id)

/-- Lines 87–89 of `game_engine.witch_action`: the `if killed_id:` kill. -/
def witch_final (g : Game) (killed_id : Option String) :
    Game × Except String (Option String) :=
  if pyTruthy killed_id then
    match getPlayer? g (killed_id.getD "") with
    | none => (g, Except.error "Joueur introuvable.")
    | some _ =>
        witch_final2 { g with players := killFirst g.players (killed_id.getD "") } killed_id
  else
    witch_final2 g killed_id

/-- Lines 76–85 of `game_engine.witch_action`: the poison branch. -/
def witch_poison (g : Game) (killed_id : Option String)
    (poison_target_id : Option String) : Game × Except String (Option String) :=
  if pyTruthy poison_target_id then
    let pid := poison_target_id.getD ""
    if g.potions.poison_used then
      (g, Except.error "La potion de poison a déjà été utilisée.")
    else
      match getPlayer? g pid with
      | none => (g, Except.error "Joueur introuvable.")
      | some target =>
          if target.status != "alive" then
            (g, Except.error "Cette action nécessite un joueur vivant.")
          else if poison_target_id == killed_id then
            (g, Except.error "Impossible d'empoisonner un joueur déjà ciblé.")
          else
            witch_final
              { g with players := killFirst g.players pid,
                       potions := { g.potions with poison_used := true } }
              (some pid)
  else
    witch_final g killed_id

/-- `game_engine.witch_action`.  The returned `Game` is the state of the
object after the call, also when a `GameStateError` is raised (Python
mutates in place, and the heal effects at lines 72–74 precede the poison
branch's checks). -/
def witch_action (g : Game) (heal : Bool) (poison_target_id : Option String) :
    Game × Except String (Option String) :=
  if g.phase != "night_witch" then
    (g, Except.error "Ce n'est pas le tour de la sorcière.")
  else
    let killed_id := g.last_killed
    if heal && g.potions.heal_used then
      (g, Except.error "La potion de soin a déjà été utilisée.")
    else if heal && !pyTruthy g.last_killed then
      (g, Except.error "Aucun joueur à sauver.")
    else
      let g1 := if heal then
          { g with last_killed := none,
                   potions := { g.potions with heal_used := true } }
        else g
      let killed1 := if heal then none else killed_id
      witch_poison g1 killed1 poison_target_id

/-- `game_engine.start_next_night`. -/
def start_next_night (g : Game) : Game × Except String Unit :=
  if g.phase != "day" then
    (g, Except.error "La nuit ne peut démarrer qu'après la phase de jour.")
  else
    ({ g with phase := "night_seer" }, Except.ok ())

/-- `game_engine.is_game_over`: pure query, reads the session, returns
`(over, winner)`, mutates nothing (it is embedded as a function that does
not produce a `Game`). -/
def is_game_over (g : Game) : Bool × Option String :=
  let alive := alive_players g.players
  let wolves := alive.filter (fun p => p.role == "wolf")
  let villagers := alive.filter (fun p => p.role != "wolf")
  if wolves.isEmpty then (true, some "village")
  else if villagers.length ≤ wolves.length then (true, some "wolves")
  else (false, none)

/-- `roles._wolf_count`.  Python integers are unbounded, so `Int`. -/
def _wolf_count (player_count : Int) : Int :=
  if player_count ≤ 6 then 1
  else if player_count ≤ 9 then 2
  else 3

/-- The role counts `roles.role_distribution` returns as a `Dict[str, int]`. -/
structure RoleDist where
  seer : Int
  witch : Int
  wolf : Int
  villager : Int
deriving Repr, DecidableEq

/-- `roles.role_distribution`; a raised `ValueError` is `Except.error` with
the same message.  The source initialises the witch quota to `0` and
overwrites it with `1` when `player_count >= 6` before summing. -/
def role_distribution (player_count : Int) : Except String RoleDist :=
  if player_count < 5 then
    Except.error "Au moins 5 joueurs sont requis pour lancer une partie."
  else
    let witch : Int := if player_count ≥ 6 then 1 else 0
    let wolf := _wolf_count player_count
    let villagers := player_count - (1 + witch + wolf)
    if villagers < 0 then
      Except.error "Le nombre de joueurs est insuffisant pour la distribution demandée."
    else
      Except.ok { seer := 1, witch := witch, wolf := wolf, villager := villagers }

/-- `game_engine.assign_roles`.  Modelled: the `random.Random(seed)` double
shuffle of `roles.assign_roles` is abstracted as an arbitrary assignment map
`roleOf : id → role`; every concrete shuffle outcome is an instance of some
`roleOf`, which is all the claims proved below need.  The phase check, the
per-player `status = "alive"` write and the transition to `night_seer` are
verbatim from the source. -/
def assign_roles_with (g : Game) (roleOf : String → String) :
    Game × Except String Unit :=
  if g.phase != "lobby" then
    (g, Except.error "Les rôles ne peuvent être attribués qu'en phase de lobby.")
  else
    ({ g with
        players := g.players.map (fun p => { p with role := roleOf p.id, status := "alive" })
        phase := "night_seer" },
     Except.ok ())

/-- `agent_runtime._finalize_state`, restricted to the session record: the
`db.upsert_game`/`reload_game` round trip is the identity on the modelled
fields and `db.log_event` only appends to the projected-away history. -/
def finalize_state (g : Game) : Game :=
  if (is_game_over g).1 && !(g.phase == "ended") then { g with phase := "ended" }
  else g

/-- The `seer = next(p for p in game.players if p.role == "seer" and
p.status == "alive")` test of `tool_wolves_vote` (and
`tool_run_night_sequence`). -/
def hasAliveSeer (g : Game) : Bool :=
  g.players.any (fun p => p.role == "seer" && p.status == "alive")

/-- The `wolves = [p for p in game.players if p.role == "wolf" and
p.status == "alive"]` test of `tool_witch_action` (and
`tool_run_night_sequence`). -/
def hasAliveWolf (g : Game) : Bool :=
  g.players.any (fun p => p.role == "wolf" && p.status == "alive")

/-- Body of `agent_runtime.tool_wolves_vote` after its phase prologue:
name lookup, the tool-level liveness check, the engine call, event logging
(projected away) and `_finalize_state`. -/
def tool_wolves_core (g : Game) (target_name : String) :
    Game × Except String String :=
  match find_player_by_name g.players target_name with
  | none => (g, Except.error (target_name ++ " est introuvable."))
  | some target =>
      if target.status != "alive" then
        (g, Except.error (target.name ++ " est déjà éliminé."))
      else
        match wolves_vote g target.id with
        | (g', Except.error e) => (g', Except.error e)
        | (g', Except.ok _) =>
            (finalize_state g', Except.ok ("Les Loups ciblent " ++ target.name ++ "."))

/-- `agent_runtime.tool_wolves_vote`.  In `night_seer` with a living seer it
errors; with the seer dead it silently advances the phase to `night_wolves`
(`db.set_phase` + reload) and proceeds. -/
def tool_wolves_vote (g : Game) (target_name : String) :
    Game × Except String String :=
  if g.phase == "night_seer" then
    if hasAliveSeer g then
      (g, Except.error "La Voyante doit d'abord jouer son tour. Demande à la Voyante de sonder un joueur.")
    else
      tool_wolves_core { g with phase := "night_wolves" } target_name
  else if g.phase != "night_wolves" then
    (g, Except.error ("Ce n'est pas le tour des Loups. Phase actuelle : " ++ g.phase ++ ". Utilise 'run_night_sequence' pour voir qui doit jouer."))
  else
    tool_wolves_core g target_name

/-- Body of `agent_runtime.tool_witch_action` after its phase prologue:
poison-name resolution, the engine call, event logging (projected away) and
`_finalize_state`.  The `saved_name` computation only feeds a log event. -/
def tool_witch_core (g : Game) (heal : Bool) (poison_target : Option String) :
    Game × Except String String :=
  let resolved : Except String (Option String) :=
    if pyTruthy poison_target then
      match find_player_by_name g.players (poison_target.getD "") with
      | none => Except.error ((poison_target.getD "") ++ " n'est pas un joueur valide.")
      | some t => Except.ok (some t.id)
    else Except.ok none
  match resolved with
  | Except.error e => (g, Except.error e)
  | Except.ok poison_id =>
      match witch_action g heal poison_id with
      | (g', Except.error e) => (g', Except.error e)
      | (g', Except.ok _) =>
          (finalize_state g', Except.ok "Action de la Sorcière appliquée.")

/-- `agent_runtime.tool_witch_action`.  In `night_seer` it always errors
(no check whether the seer is alive); in `night_wolves` with living wolves
it errors, with all wolves dead it silently advances to `night_witch`
(`db.set_phase` + reload) and proceeds. -/
def tool_witch_action (g : Game) (heal : Bool) (poison_target : Option String) :
    Game × Except String String :=
  if g.phase == "night_seer" then
    (g, Except.error "La Voyante doit d'abord jouer. Utilise 'run_night_sequence' pour orchestrer la nuit dans l'ordre.")
  else if g.phase == "night_wolves" then
    if hasAliveWolf g then
      (g, Except.error "Les Loups doivent d'abord attaquer. Demande aux Loups de choisir leur victime.")
    else
      tool_witch_core { g with phase := "night_witch" } heal poison_target
  else if g.phase != "night_witch" then
    (g, Except.error ("Ce n'est pas le tour de la Sorcière. Phase actuelle : " ++ g.phase ++ ". Utilise 'run_night_sequence' pour voir qui doit jouer."))
  else
    tool_witch_core g heal poison_target

/-- The state of the game object after the heal effects of
`witch_action` lines 72–74 (`last_killed = None`, `heal_used = True`). -/
def applyHeal (g : Game) : Game :=
  { g with last_killed := none, potions := { g.potions with heal_used := true } }

/-- The state of the game object after the poison effects of
`witch_action` lines 83–85 (target marked dead, `poison_used = True`). -/
def applyPoison (g : Game) (pid : String) : Game :=
  { g with players := killFirst g.players pid,
           potions := { g.potions with poison_used := true } }

/-- One successful (or, for `witch_action`, possibly failing) dispatcher
command acting on the in-memory session record, as the tools of
`agent_runtime.py` perform them.  `addPlayer` models `db.add_player`,
whose id is a fresh `uuid7()`, hence the freshness hypothesis;
`removePlayer` models the `$pull` of `db.remove_player`; `assignRoles`,
`seerPeek`, `wolvesVote`, `witchAct` and `startNight` are the successful
engine transitions followed by `_finalize_state`; `witchFail` keeps the
in-memory object a failing `witch_action` leaves behind (the dispatcher
catches the error without reloading); `skipSeer`/`skipWolves` are the
dead-role phase skips of `tool_wolves_vote`, `tool_witch_action` and
`tool_run_night_sequence`. -/
inductive Step : Game → Game → Prop where
  | addPlayer (g : Game) (pid pname : String)
      (hfresh : ∀ p ∈ g.players, p.id ≠ pid) :
      Step g { g with players :=
        g.players ++ [{ id := pid, name := pname, role := "villager", status := "alive" }] }
  | removePlayer (g : Game) (pid : String) :
      Step g { g with players := g.players.filter (fun p => !(p.id == pid)) }
  | assignRoles (g : Game) (roleOf : String → String) (g' : Game)
      (h : assign_roles_with g roleOf = (g', Except.ok ())) :
      Step g (finalize_state g')
  | seerPeek (g : Game) (tid : String) (g' : Game) (r : String)
      (h : seer_peek g tid = (g', Except.ok r)) :
      Step g (finalize_state g')
  | wolvesVote (g : Game) (tid : String) (g' : Game) (r : String)
      (h : wolves_vote g tid = (g', Except.ok r)) :
      Step g (finalize_state g')
  | witchAct (g : Game) (heal : Bool) (pt : Option String) (g' : Game) (r : Option String)
      (h : witch_action g heal pt = (g', Except.ok r)) :
      Step g (finalize_state g')
  | witchFail (g : Game) (heal : Bool) (pt : Option String) (g' : Game) (e : String)
      (h : witch_action g heal pt = (g', Except.error e)) :
      Step g g'
  | startNight (g : Game) (g' : Game)
      (h : start_next_night g = (g', Except.ok ())) :
      Step g (finalize_state g')
  | skipSeer (g : Game) (h : g.phase = "night_seer") (hs : hasAliveSeer g = false) :
      Step g { g with phase := "night_wolves" }
  | skipWolves (g : Game) (h : g.phase = "night_wolves") (hw : hasAliveWolf g = false) :
      Step g { g with phase := "night_witch" }

/-- Session states reachable from a freshly created session
(`db.create_game`) by dispatcher commands. -/
inductive Reachable : Game → Prop where
  | init (code : String) : Reachable (initGame code)
  | step {g g' : Game} : Reachable g → Step g g' → Reachable g'

-- Concrete states used by the witness theorems below.

/-- Witness session: `night_seer`, five living players. -/
def gSeerW : Game :=
  { initGame "ABCDEF" with
    phase := "night_seer"
    players := [⟨"1", "Alice", "wolf", "alive"⟩, ⟨"2", "Bob", "villager", "alive"⟩,
                ⟨"3", "Carol", "seer", "alive"⟩, ⟨"4", "Dan", "witch", "alive"⟩,
                ⟨"5", "Eve", "villager", "alive"⟩] }

/-- Witness session: `night_witch`, pending kill on `"2"`, both potions unused. -/
def gWitchW : Game :=
  { initGame "ABCDEF" with
    phase := "night_witch"
    players := [⟨"1", "Alice", "wolf", "alive"⟩, ⟨"2", "Bob", "villager", "alive"⟩,
                ⟨"3", "Carol", "seer", "alive"⟩, ⟨"4", "Dan", "witch", "alive"⟩,
                ⟨"5", "Eve", "villager", "alive"⟩]
    last_killed := some "2" }

/-- Counterexample session for the error-frame claim: `night_witch`,
pending kill on `"p1"`, heal potion unused but poison potion already
used. -/
def gC1 : Game :=
  { initGame "ABCDEF" with
    phase := "night_witch"
    players := [⟨"p1", "Alice", "villager", "alive"⟩, ⟨"p2", "Bob", "wolf", "alive"⟩]
    last_killed := some "p1"
    potions := { heal_used := false, poison_used := true } }

/-- Counterexample session for the cascading-skip claim: `night_seer` with
the seer dead and every wolf dead. -/
def gC2 : Game :=
  { initGame "ABCDEF" with
    phase := "night_seer"
    players := [⟨"1", "Alice", "seer", "dead"⟩, ⟨"2", "Bob", "wolf", "dead"⟩,
                ⟨"3", "Carol", "witch", "alive"⟩, ⟨"4", "Dan", "villager", "alive"⟩,
                ⟨"5", "Eve", "villager", "alive"⟩] }

/-- Witness session for the single-step skip: `night_wolves` with every
wolf dead and the witch alive. -/
def gC2W : Game :=
  { gC2 with phase := "night_wolves" }

-- A concrete command history used to witness the reachability claim:
-- create, add five players, assign roles, a full first night killing "2",
-- then start the next night.

/-- Role map realising one concrete shuffle outcome for the witness run. -/
def roleOfW : String → String := fun pid =>
  if pid == "1" then "wolf"
  else if pid == "3" then "seer"
  else if pid == "4" then "witch"
  else "villager"

def gB : Game := initGame "ABCDEF"

def gB1 : Game := { gB with players := gB.players ++ [⟨"1", "Alice", "villager", "alive"⟩] }

def gB2 : Game := { gB1 with players := gB1.players ++ [⟨"2", "Bob", "villager", "alive"⟩] }

def gB3 : Game := { gB2 with players := gB2.players ++ [⟨"3", "Carol", "villager", "alive"⟩] }

def gB4 : Game := { gB3 with players := gB3.players ++ [⟨"4", "Dan", "villager", "alive"⟩] }

def gB5 : Game := { gB4 with players := gB4.players ++ [⟨"5", "Eve", "villager", "alive"⟩] }

def gB6 : Game :=
  { gB5 with
    players := gB5.players.map (fun p => { p with role := roleOfW p.id, status := "alive" })
    phase := "night_seer" }

def gB7 : Game := { finalize_state gB6 with phase := "night_wolves" }

def gB8 : Game :=
  { finalize_state gB7 with last_killed := some "2", phase := "night_witch" }

/-- State after the witch pass finalizes the pending kill on `"2"`. -/
def gB9 : Game :=
  { code := "ABCDEF"
    phase := "day"
    players := [⟨"1", "Alice", "wolf", "alive"⟩, ⟨"2", "Bob", "villager", "dead"⟩,
                ⟨"3", "Carol", "seer", "alive"⟩, ⟨"4", "Dan", "witch", "alive"⟩,
                ⟨"5", "Eve", "villager", "alive"⟩]
    last_killed := none
    potions := { heal_used := false, poison_used := false } }

def gB10 : Game := { finalize_state gB9 with phase := "night_seer" }

-- smoke tests against the spec's §8 scenarios
example :
    is_game_over
      { initGame "ABCDEF" with
        phase := "day"
        players := [⟨"1", "a", "wolf", "alive"⟩, ⟨"2", "b", "seer", "alive"⟩,
                    ⟨"3", "c", "villager", "alive"⟩, ⟨"4", "d", "villager", "alive"⟩,
                    ⟨"5", "e", "villager", "alive"⟩] } = (false, none) := by decide

example :
    is_game_over
      { initGame "ABCDEF" with
        phase := "day"
        players := [⟨"1", "a", "wolf", "alive"⟩, ⟨"2", "b", "seer", "dead"⟩,
                    ⟨"3", "c", "villager", "dead"⟩, ⟨"4", "d", "villager", "dead"⟩,
                    ⟨"5", "e", "villager", "alive"⟩] } = (true, some "wolves") := by decide

example :
    is_game_over
      { initGame "ABCDEF" with
        phase := "day"
        players := [⟨"1", "a", "wolf", "dead"⟩, ⟨"2", "b", "seer", "alive"⟩,
                    ⟨"3", "c", "villager", "alive"⟩, ⟨"4", "d", "villager", "alive"⟩,
                    ⟨"5", "e", "villager", "alive"⟩] } = (true, some "village") := by decide

example :
    witch_action
      { initGame "ABCDEF" with
        phase := "night_witch"
        players := [⟨"1", "a", "wolf", "alive"⟩, ⟨"2", "b", "seer", "alive"⟩,
                    ⟨"3", "c", "villager", "alive"⟩]
        last_killed := some "2" }
      false none =
    ({ initGame "ABCDEF" with
        phase := "day"
        players := [⟨"1", "a", "wolf", "alive"⟩, ⟨"2", "b", "seer", "dead"⟩,
                    ⟨"3", "c", "villager", "alive"⟩]
        last_killed := none },
     Except.ok (some "2")) := by decide

/-- C5: for every player count `n` with `5 ≤ n ≤ 20`, `role_distribution n`
yields role counts summing exactly to `n`, with wolves = 1 when `n ≤ 6`,
2 when `7 ≤ n ≤ 9`, 3 when `n ≥ 10`; witch = 1 iff `n ≥ 6`, else 0;
seer = 1 always (the remaining players, `villager`, make the sum `n`);
and for `n < 5` it fails with the insufficient-players error. -/
theorem role_distribution_quota (n : Int) :
    (5 ≤ n → n ≤ 20 →
      ∃ d, role_distribution n = Except.ok d ∧
        d.seer + d.witch + d.wolf + d.villager = n ∧
        d.seer = 1 ∧
        (n ≤ 6 → d.wolf = 1) ∧ (7 ≤ n → n ≤ 9 → d.wolf = 2) ∧ (10 ≤ n → d.wolf = 3) ∧
        (d.witch = 1 ↔ 6 ≤ n) ∧ (n < 6 → d.witch = 0)) ∧
    (n < 5 → role_distribution n =
      Except.error "Au moins 5 joueurs sont requis pour lancer une partie.") := by
  constructor
  · intro h5 _h20
    simp only [role_distribution, _wolf_count]
    split_ifs <;>
      first
        | omega
        | (refine ⟨_, rfl, ?_⟩; simp; omega)
  · intro h
    simp only [role_distribution]
    rw [if_pos h]

/-- C5 witness: the theorem applied at `n = 12` and `n = 4`. -/
theorem role_distribution_quota_witness :
    (∃ d, role_distribution 12 = Except.ok d ∧
        d.seer + d.witch + d.wolf + d.villager = 12 ∧
        d.seer = 1 ∧
        ((12:Int) ≤ 6 → d.wolf = 1) ∧ (7 ≤ (12:Int) → (12:Int) ≤ 9 → d.wolf = 2) ∧
        (10 ≤ (12:Int) → d.wolf = 3) ∧
        (d.witch = 1 ↔ 6 ≤ (12:Int)) ∧ ((12:Int) < 6 → d.witch = 0)) ∧
    role_distribution 4 =
      Except.error "Au moins 5 joueurs sont requis pour lancer une partie." :=
  ⟨(role_distribution_quota 12).1 (by decide) (by decide),
   (role_distribution_quota 4).2 (by decide)⟩

/-- C9: for every `player_count ≥ 5` the villager count is non-negative and
`role_distribution` succeeds — the internal `villagers < 0` error branch is
unreachable; the only raising condition is `player_count < 5`. -/
theorem role_distribution_total (n : Int) :
    (5 ≤ n → ∃ d, role_distribution n = Except.ok d ∧ 0 ≤ d.villager) ∧
    (∀ e, role_distribution n = Except.error e →
      n < 5 ∧ e = "Au moins 5 joueurs sont requis pour lancer une partie.") := by
  constructor
  · intro h5
    simp only [role_distribution, _wolf_count]
    split_ifs <;>
      first
        | omega
        | (refine ⟨_, rfl, ?_⟩; simp; omega)
  · intro e
    simp only [role_distribution, _wolf_count]
    by_cases h1 : n < 5
    · rw [if_pos h1]
      intro he
      cases he
      exact ⟨h1, rfl⟩
    · rw [if_neg h1]
      split_ifs <;> intro he <;> first | omega | cases he

/-- C9 witness: the theorem applied at `n = 5` and at the error input `n = 0`. -/
theorem role_distribution_total_witness :
    (∃ d, role_distribution 5 = Except.ok d ∧ 0 ≤ d.villager) ∧
    ((0:Int) < 5 ∧
      "Au moins 5 joueurs sont requis pour lancer une partie." =
        "Au moins 5 joueurs sont requis pour lancer une partie.") :=
  ⟨(role_distribution_total 5).1 (by decide),
   (role_distribution_total 0).2 _ (by decide)⟩

/-- C7: in phase `night_seer`, for a target id that exists and is alive,
`seer_peek` returns the target's role and transitions the phase to
`night_wolves`, changing nothing else — the resulting session is exactly
the input with only `phase` updated (players, roles, statuses,
`last_killed`, potions and `code` untouched). -/
theorem seer_peek_spec (g : Game) (tid : String) (target : Player)
    (hphase : g.phase = "night_seer")
    (hfind : getPlayer? g tid = some target)
    (halive : target.status = "alive") :
    seer_peek g tid = ({ g with phase := "night_wolves" }, Except.ok target.role) := by
  unfold seer_peek
  rw [hphase, hfind]
  simp [halive]

/-- C7 witness: the theorem applied to a concrete five-player session. -/
theorem seer_peek_spec_witness :
    seer_peek gSeerW "2" = ({ gSeerW with phase := "night_wolves" }, Except.ok "villager") :=
  seer_peek_spec gSeerW "2" ⟨"2", "Bob", "villager", "alive"⟩ rfl (by decide) rfl

/-- C3: `is_game_over` is a pure query (it reads the session and produces a
pair, mutating nothing); it returns `(true, village)` exactly when no alive
player has role wolf, otherwise `(true, wolves)` exactly when the number of
alive wolves is ≥ the number of alive non-wolves (ties win for wolves),
otherwise `(false, none)`. -/
theorem is_game_over_spec (g : Game) :
    is_game_over g =
      (if g.players.countP (fun p => p.role == "wolf" && p.status == "alive") = 0 then
        (true, some "village")
      else if g.players.countP (fun p => !(p.role == "wolf") && p.status == "alive") ≤
             g.players.countP (fun p => p.role == "wolf" && p.status == "alive") then
        (true, some "wolves")
      else (false, none)) := by
  simp only [is_game_over, alive_players, List.filter_filter,
    List.isEmpty_iff_length_eq_zero, ← List.countP_eq_length_filter, bne]

-- Helper lemmas about `killFirst` and `getPlayer?`.

theorem killFirst_find?_eq (ps : List Player) (pid : String) (t : Player)
    (h : ps.find? (fun p => p.id == pid) = some t) :
    (killFirst ps pid).find? (fun p => p.id == pid) = some { t with status := "dead" } := by
  induction ps with
  | nil => simp at h
  | cons p rest ih =>
      by_cases hp : (p.id == pid) = true
      · simp only [List.find?_cons, hp] at h
        have ht : p = t := by simpa using h
        subst ht
        simp [killFirst, hp, List.find?_cons]
      · have hp' : (p.id == pid) = false := by simpa using hp
        simp only [List.find?_cons, hp'] at h
        simp [killFirst, hp', List.find?_cons, ih h]

theorem killFirst_find?_ne (ps : List Player) (pid vid : String) (hne : vid ≠ pid) :
    (killFirst ps pid).find? (fun p => p.id == vid) = ps.find? (fun p => p.id == vid) := by
  induction ps with
  | nil => rfl
  | cons p rest ih =>
      by_cases hp : (p.id == pid) = true
      · have hpid : p.id = pid := by simpa using hp
        have hpv : (p.id == vid) = false := by
          rw [beq_eq_false_iff_ne, hpid]
          exact Ne.symm hne
        simp [killFirst, hp, List.find?_cons, hpv]
      · have hp' : (p.id == pid) = false := by simpa using hp
        by_cases hv : (p.id == vid) = true
        · simp [killFirst, hp', List.find?_cons, hv]
        · have hv' : (p.id == vid) = false := by simpa using hv
          simp [killFirst, hp', List.find?_cons, hv', ih]

theorem killFirst_killFirst (ps : List Player) (pid : String) :
    killFirst (killFirst ps pid) pid = killFirst ps pid := by
  induction ps with
  | nil => rfl
  | cons p rest ih =>
      by_cases hp : (p.id == pid)
      · simp [killFirst, hp]
      · simp [killFirst, hp, ih]

-- Branch equations for the stages of `witch_action`.

theorem witch_final2_none (g : Game) (k : Option String)
    (h : pyTruthy g.last_killed = false) :
    witch_final2 g k = ({ g with last_killed := none, phase := "day" }, Except.ok k) := by
  simp [witch_final2, h]

theorem witch_final2_kill (g : Game) (k : Option String) (vid : String) (t : Player)
    (h : g.last_killed = some vid) (hv : vid ≠ "")
    (hf : getPlayer? g vid = some t) :
    witch_final2 g k =
      ({ g with players := killFirst g.players vid, last_killed := none, phase := "day" },
       Except.ok k) := by
  have htr : pyTruthy g.last_killed = true := by simp [pyTruthy, h, hv]
  simp only [witch_final2, htr, if_pos]
  rw [show g.last_killed.getD "" = vid by simp [h]]
  rw [hf]

theorem witch_final2_dangling (g : Game) (k : Option String) (vid : String)
    (h : g.last_killed = some vid) (hv : vid ≠ "")
    (hf : getPlayer? g vid = none) :
    witch_final2 g k = (g, Except.error "Joueur introuvable.") := by
  have htr : pyTruthy g.last_killed = true := by simp [pyTruthy, h, hv]
  simp only [witch_final2, htr, if_pos]
  rw [show g.last_killed.getD "" = vid by simp [h]]
  rw [hf]

theorem witch_final_none (g : Game) (k : Option String)
    (h : pyTruthy k = false) :
    witch_final g k = witch_final2 g k := by
  simp [witch_final, h]

theorem witch_final_kill (g : Game) (kid : String) (t : Player) (hv : kid ≠ "")
    (hf : getPlayer? g kid = some t) :
    witch_final g (some kid) =
      witch_final2 { g with players := killFirst g.players kid } (some kid) := by
  have htr : pyTruthy (some kid) = true := by simp [pyTruthy, hv]
  simp only [witch_final, htr, if_pos, Option.getD_some]
  rw [hf]

theorem witch_final_dangling (g : Game) (kid : String) (hv : kid ≠ "")
    (hf : getPlayer? g kid = none) :
    witch_final g (some kid) = (g, Except.error "Joueur introuvable.") := by
  have htr : pyTruthy (some kid) = true := by simp [pyTruthy, hv]
  simp only [witch_final, htr, if_pos, Option.getD_some]
  rw [hf]

theorem witch_poison_skip (g : Game) (k : Option String) (pt : Option String)
    (h : pyTruthy pt = false) :
    witch_poison g k pt = witch_final g k := by
  simp [witch_poison, h]

theorem witch_poison_used (g : Game) (k : Option String) (pid : String)
    (hp : pid ≠ "") (h : g.potions.poison_used = true) :
    witch_poison g k (some pid) =
      (g, Except.error "La potion de poison a déjà été utilisée.") := by
  have htr : pyTruthy (some pid) = true := by simp [pyTruthy, hp]
  simp [witch_poison, htr, h]

theorem witch_poison_notfound (g : Game) (k : Option String) (pid : String)
    (hp : pid ≠ "") (h : g.potions.poison_used = false)
    (hf : getPlayer? g pid = none) :
    witch_poison g k (some pid) = (g, Except.error "Joueur introuvable.") := by
  have htr : pyTruthy (some pid) = true := by simp [pyTruthy, hp]
  simp only [witch_poison, htr, if_pos, h, Bool.false_eq_true, if_false, Option.getD_some]
  rw [hf]

theorem witch_poison_dead (g : Game) (k : Option String) (pid : String) (t : Player)
    (hp : pid ≠ "") (h : g.potions.poison_used = false)
    (hf : getPlayer? g pid = some t) (hd : (t.status == "alive") = false) :
    witch_poison g k (some pid) =
      (g, Except.error "Cette action nécessite un joueur vivant.") := by
  have htr : pyTruthy (some pid) = true := by simp [pyTruthy, hp]
  have hd' : ¬(t.status = "alive") := by simpa using hd
  simp only [witch_poison, htr, if_pos, h, Bool.false_eq_true, if_false, Option.getD_some]
  rw [hf]
  simp [hd']

theorem witch_poison_dup (g : Game) (k : Option String) (pid : String) (t : Player)
    (hp : pid ≠ "") (h : g.potions.poison_used = false)
    (hf : getPlayer? g pid = some t) (ha : (t.status == "alive") = true)
    (hdup : k = some pid) :
    witch_poison g k (some pid) =
      (g, Except.error "Impossible d'empoisonner un joueur déjà ciblé.") := by
  have htr : pyTruthy (some pid) = true := by simp [pyTruthy, hp]
  have ha' : t.status = "alive" := by simpa using ha
  simp only [witch_poison, htr, if_pos, h, Bool.false_eq_true, if_false, Option.getD_some]
  rw [hf]
  simp [ha', hdup]

theorem witch_poison_go (g : Game) (k : Option String) (pid : String) (t : Player)
    (hp : pid ≠ "") (h : g.potions.poison_used = false)
    (hf : getPlayer? g pid = some t) (ha : (t.status == "alive") = true)
    (hdup : k ≠ some pid) :
    witch_poison g k (some pid) = witch_final (applyPoison g pid) (some pid) := by
  have htr : pyTruthy (some pid) = true := by simp [pyTruthy, hp]
  have ha' : t.status = "alive" := by simpa using ha
  have hne : ¬(some pid = k) := fun hc => hdup hc.symm
  simp only [witch_poison, htr, if_pos, h, Bool.false_eq_true, if_false, Option.getD_some]
  rw [hf]
  simp [ha', hne, applyPoison]

theorem witch_action_notphase (g : Game) (heal : Bool) (pt : Option String)
    (h : ¬(g.phase = "night_witch")) :
    witch_action g heal pt =
      (g, Except.error "Ce n'est pas le tour de la sorcière.") := by
  simp [witch_action, h]

theorem witch_action_healused (g : Game) (pt : Option String)
    (hphase : g.phase = "night_witch") (h : g.potions.heal_used = true) :
    witch_action g true pt =
      (g, Except.error "La potion de soin a déjà été utilisée.") := by
  simp [witch_action, hphase, h]

theorem witch_action_novictim (g : Game) (pt : Option String)
    (hphase : g.phase = "night_witch") (h : g.potions.heal_used = false)
    (hlk : pyTruthy g.last_killed = false) :
    witch_action g true pt = (g, Except.error "Aucun joueur à sauver.") := by
  simp [witch_action, hphase, h, hlk]

theorem witch_action_heal_go (g : Game) (pt : Option String)
    (hphase : g.phase = "night_witch") (h : g.potions.heal_used = false)
    (hlk : pyTruthy g.last_killed = true) :
    witch_action g true pt = witch_poison (applyHeal g) none pt := by
  simp [witch_action, hphase, h, hlk, applyHeal]

theorem witch_action_noheal_go (g : Game) (pt : Option String)
    (hphase : g.phase = "night_witch") :
    witch_action g false pt = witch_poison g g.last_killed pt := by
  simp [witch_action, hphase]

/-- C10: in `night_witch` with a pending victim and both potions unused,
`witch_action` with `heal=true` and the poison target equal to the pending
victim succeeds (no `DuplicateTarget`: the duplicate check compares against
the post-heal pending kill, already cleared): both potions are consumed and
the healed player is killed by the poison, ending the night dead, with the
call returning that player's id. -/
theorem witch_heal_then_poison_same_target (g : Game) (vid : String) (t : Player)
    (hphase : g.phase = "night_witch")
    (hlk : g.last_killed = some vid) (hv : vid ≠ "")
    (hheal : g.potions.heal_used = false)
    (hpois : g.potions.poison_used = false)
    (hf : getPlayer? g vid = some t)
    (ha : t.status = "alive") :
    witch_action g true (some vid) =
      ({ g with players := killFirst g.players vid,
                last_killed := none,
                phase := "day",
                potions := { heal_used := true, poison_used := true } },
       Except.ok (some vid)) := by
  rw [witch_action_heal_go g (some vid) hphase hheal (by simp [pyTruthy, hlk, hv])]
  rw [witch_poison_go (applyHeal g) none vid t hv
       (by simpa [applyHeal] using hpois)
       (by simpa [applyHeal, getPlayer?] using hf)
       (by simp [ha])
       (by simp)]
  rw [witch_final_kill (applyPoison (applyHeal g) vid) vid { t with status := "dead" } hv
       (by
         have := killFirst_find?_eq g.players vid t hf
         simpa [applyPoison, applyHeal, getPlayer?] using this)]
  rw [witch_final2_none _ _ (by simp [applyPoison, applyHeal, pyTruthy])]
  simp [applyPoison, applyHeal, killFirst_killFirst]

/-- C10 witness: the theorem applied to a concrete five-player session. -/
theorem witch_heal_then_poison_same_target_witness :
    witch_action gWitchW true (some "2") =
      ({ gWitchW with players := killFirst gWitchW.players "2",
                      last_killed := none,
                      phase := "day",
                      potions := { heal_used := true, poison_used := true } },
       Except.ok (some "2")) :=
  witch_heal_then_poison_same_target gWitchW "2" ⟨"2", "Bob", "villager", "alive"⟩
    rfl rfl (by decide) rfl rfl (by decide) rfl

/-- C6: in `night_witch`, `witch_action` with `heal=true` fails with
`PotionAlreadyUsed` when the heal potion was already used, fails with
`NoPendingVictim` when `last_killed` is unset, and otherwise clears
`last_killed`, sets `potions.heal_used`, and cancels the pending kill: the
pending victim's player record is untouched by the call (no death results
from the wolf attack that night) unless the poison explicitly retargets
that same player. -/
theorem witch_action_heal_spec (g : Game) (pt : Option String)
    (hphase : g.phase = "night_witch") :
    (g.potions.heal_used = true →
      witch_action g true pt = (g, Except.error "La potion de soin a déjà été utilisée.")) ∧
    (g.potions.heal_used = false → pyTruthy g.last_killed = false →
      witch_action g true pt = (g, Except.error "Aucun joueur à sauver.")) ∧
    (g.potions.heal_used = false → ∀ vid, g.last_killed = some vid → vid ≠ "" →
      (witch_action g true pt).1.last_killed = none ∧
      (witch_action g true pt).1.potions.heal_used = true ∧
      (pt ≠ some vid →
        getPlayer? (witch_action g true pt).1 vid = getPlayer? g vid)) := by
  refine ⟨fun h => witch_action_healused g pt hphase h,
          fun h hlk => witch_action_novictim g pt hphase h hlk,
          fun hheal vid hlk hv => ?_⟩
  rw [witch_action_heal_go g pt hphase hheal (by simp [pyTruthy, hlk, hv])]
  by_cases hpt : pyTruthy pt = true
  · obtain ⟨pid, rfl⟩ : ∃ pid, pt = some pid := by
      cases pt with
      | none => simp [pyTruthy] at hpt
      | some s => exact ⟨s, rfl⟩
    have hpid : pid ≠ "" := by simpa [pyTruthy] using hpt
    by_cases hpu : g.potions.poison_used = true
    · rw [witch_poison_used (applyHeal g) none pid hpid (by simpa [applyHeal] using hpu)]
      simp [applyHeal, getPlayer?]
    · have hpu' : (applyHeal g).potions.poison_used = false := by
        simpa [applyHeal] using hpu
      cases hfind : getPlayer? (applyHeal g) pid with
      | none =>
          rw [witch_poison_notfound (applyHeal g) none pid hpid hpu' hfind]
          simp [applyHeal, getPlayer?]
      | some t =>
          by_cases hal : (t.status == "alive") = true
          · rw [witch_poison_go (applyHeal g) none pid t hpid hpu' hfind hal (by simp)]
            rw [witch_final_kill (applyPoison (applyHeal g) pid) pid { t with status := "dead" } hpid
                 (by
                   have := killFirst_find?_eq (applyHeal g).players pid t hfind
                   simpa [applyPoison, getPlayer?] using this)]
            rw [witch_final2_none _ _ (by simp [applyPoison, applyHeal, pyTruthy])]
            refine ⟨rfl, rfl, fun hne => ?_⟩
            have hne' : vid ≠ pid := fun hc => hne (by rw [hc])
            simp only [applyPoison, applyHeal, getPlayer?]
            rw [killFirst_killFirst]
            exact killFirst_find?_ne g.players pid vid hne'
          · have hal' : (t.status == "alive") = false := by simpa using hal
            rw [witch_poison_dead (applyHeal g) none pid t hpid hpu' hfind hal']
            simp [applyHeal, getPlayer?]
  · have hpt' : pyTruthy pt = false := by simpa using hpt
    rw [witch_poison_skip (applyHeal g) none pt hpt']
    rw [witch_final_none (applyHeal g) none (by simp [pyTruthy])]
    rw [witch_final2_none (applyHeal g) none (by simp [applyHeal, pyTruthy])]
    simp [applyHeal, getPlayer?]

/-- C6 witness: the heal branch applied to a concrete session with a
pending victim. -/
theorem witch_action_heal_spec_witness :
    (witch_action gWitchW true none).1.last_killed = none ∧
    (witch_action gWitchW true none).1.potions.heal_used = true ∧
    ((none : Option String) ≠ some "2" →
      getPlayer? (witch_action gWitchW true none).1 "2" = getPlayer? gWitchW "2") :=
  (witch_action_heal_spec gWitchW none rfl).2.2 rfl "2" rfl (by decide)

/-- Any `Except.ok` outcome of the finalisation stage of `witch_action`
returns its `killed_id` argument, moves the phase to `day`, clears
`last_killed`, and has marked the player referenced by a still-set
(truthy) `last_killed` dead. -/
theorem witch_final_ok (G : Game) (K : Option String) (g' : Game) (ret : Option String)
    (h : witch_final G K = (g', Except.ok ret)) :
    ret = K ∧ g'.phase = "day" ∧ g'.last_killed = none ∧
    (∀ vid, G.last_killed = some vid → vid ≠ "" →
      ∃ q, getPlayer? g' vid = some q ∧ q.status = "dead") := by
  have final2_case : ∀ (G1 : Game),
      G1.last_killed = G.last_killed →
      witch_final2 G1 K = (g', Except.ok ret) →
      ret = K ∧ g'.phase = "day" ∧ g'.last_killed = none ∧
      (∀ vid, G.last_killed = some vid → vid ≠ "" →
        ∃ q, getPlayer? g' vid = some q ∧ q.status = "dead") := by
    intro G1 hsame h2
    by_cases hlkt : pyTruthy G.last_killed = true
    · obtain ⟨vid, hvid⟩ : ∃ v, G.last_killed = some v := by
        cases hgl : G.last_killed with
        | none => rw [hgl] at hlkt; simp [pyTruthy] at hlkt
        | some v => exact ⟨v, rfl⟩
      have hvne : vid ≠ "" := by
        rw [hvid] at hlkt; simpa [pyTruthy] using hlkt
      cases hq : getPlayer? G1 vid with
      | none =>
          rw [witch_final2_dangling G1 K vid (hsame.trans hvid) hvne hq] at h2
          simp at h2
      | some q =>
          rw [witch_final2_kill G1 K vid q (hsame.trans hvid) hvne hq] at h2
          simp only [Prod.mk.injEq, Except.ok.injEq] at h2
          obtain ⟨h2a, h2b⟩ := h2
          subst h2a
          subst h2b
          refine ⟨rfl, rfl, rfl, fun vid0 hlk0 hv0 => ?_⟩
          have : vid0 = vid := by rw [hvid] at hlk0; exact (Option.some.injEq _ _).mp hlk0.symm ▸ rfl
          subst this
          exact ⟨{ q with status := "dead" },
            by simpa [getPlayer?] using killFirst_find?_eq G1.players vid0 q hq, rfl⟩
    · have hlkf : pyTruthy G1.last_killed = false := by rw [hsame]; simpa using hlkt
      rw [witch_final2_none G1 K hlkf] at h2
      simp only [Prod.mk.injEq, Except.ok.injEq] at h2
      obtain ⟨h2a, h2b⟩ := h2
      subst h2a
      subst h2b
      refine ⟨rfl, rfl, rfl, fun vid0 hlk0 hv0 => ?_⟩
      rw [hlk0] at hlkt
      simp [pyTruthy, hv0] at hlkt
  by_cases hkt : pyTruthy K = true
  · obtain ⟨kid, rfl⟩ : ∃ k, K = some k := by
      cases K with
      | none => simp [pyTruthy] at hkt
      | some k => exact ⟨k, rfl⟩
    have hkne : kid ≠ "" := by simpa [pyTruthy] using hkt
    cases hfk : getPlayer? G kid with
    | none =>
        rw [witch_final_dangling G kid hkne hfk] at h
        simp at h
    | some t =>
        rw [witch_final_kill G kid t hkne hfk] at h
        exact final2_case { G with players := killFirst G.players kid } rfl h
  · have hkf : pyTruthy K = false := by simpa using hkt
    rw [witch_final_none G K hkf] at h
    exact final2_case G rfl h

/-- C4: in `night_witch`, every completing (non-raising) `witch_action`
call ends by marking the player referenced by a still-set, unhealed
`last_killed` dead, clearing `last_killed`, transitioning the phase to
`day`, and returning the poison target when poison was used, otherwise the
wolf target (`none` after a heal, and `g.last_killed` itself — `none` when
no kill was pending).  A pass (`heal=false`, no poison target) is valid
whenever the pending victim, if any, exists: it still finalizes the pending
wolf kill and advances to `day`. -/
theorem witch_action_day_spec (g : Game) (hphase : g.phase = "night_witch") :
    (∀ heal pt g' ret, witch_action g heal pt = (g', Except.ok ret) →
      g'.phase = "day" ∧ g'.last_killed = none ∧
      ret = (if pyTruthy pt then pt else if heal then none else g.last_killed) ∧
      (heal = false → ∀ vid, g.last_killed = some vid → vid ≠ "" →
        ∃ q, getPlayer? g' vid = some q ∧ q.status = "dead")) ∧
    ((∀ vid, g.last_killed = some vid → vid ≠ "" → (getPlayer? g vid).isSome) →
      ∃ g' ret, witch_action g false none = (g', Except.ok ret) ∧ g'.phase = "day") := by
  constructor
  · intro heal pt g' ret h
    cases heal with
    | false =>
        rw [witch_action_noheal_go g pt hphase] at h
        by_cases hpt : pyTruthy pt = true
        · obtain ⟨pid, rfl⟩ : ∃ pid, pt = some pid := by
            cases pt with
            | none => simp [pyTruthy] at hpt
            | some s => exact ⟨s, rfl⟩
          have hpid : pid ≠ "" := by simpa [pyTruthy] using hpt
          by_cases hpu : g.potions.poison_used = true
          · rw [witch_poison_used g g.last_killed pid hpid hpu] at h
            simp at h
          · have hpu' : g.potions.poison_used = false := by simpa using hpu
            cases hfind : getPlayer? g pid with
            | none =>
                rw [witch_poison_notfound g g.last_killed pid hpid hpu' hfind] at h
                simp at h
            | some t =>
                by_cases hal : (t.status == "alive") = true
                · by_cases hdup : g.last_killed = some pid
                  · rw [witch_poison_dup g g.last_killed pid t hpid hpu' hfind hal hdup] at h
                    simp at h
                  · rw [witch_poison_go g g.last_killed pid t hpid hpu' hfind hal hdup] at h
                    obtain ⟨hr, hp, hl, hv⟩ := witch_final_ok _ _ _ _ h
                    refine ⟨hp, hl, by rw [hr]; simp [hpt],
                      fun _ vid hlk hvne =>
                        hv vid (by simpa [applyPoison] using hlk) hvne⟩
                · have hal' : (t.status == "alive") = false := by simpa using hal
                  rw [witch_poison_dead g g.last_killed pid t hpid hpu' hfind hal'] at h
                  simp at h
        · have hpt' : pyTruthy pt = false := by simpa using hpt
          rw [witch_poison_skip g g.last_killed pt hpt'] at h
          obtain ⟨hr, hp, hl, hv⟩ := witch_final_ok _ _ _ _ h
          exact ⟨hp, hl, by rw [hr]; simp [hpt'], fun _ vid hlk hvne => hv vid hlk hvne⟩
    | true =>
        by_cases hhu : g.potions.heal_used = true
        · rw [witch_action_healused g pt hphase hhu] at h
          simp at h
        · have hhu' : g.potions.heal_used = false := by simpa using hhu
          by_cases hlkt : pyTruthy g.last_killed = true
          · rw [witch_action_heal_go g pt hphase hhu' hlkt] at h
            by_cases hpt : pyTruthy pt = true
            · obtain ⟨pid, rfl⟩ : ∃ pid, pt = some pid := by
                cases pt with
                | none => simp [pyTruthy] at hpt
                | some s => exact ⟨s, rfl⟩
              have hpid : pid ≠ "" := by simpa [pyTruthy] using hpt
              by_cases hpu : (applyHeal g).potions.poison_used = true
              · rw [witch_poison_used (applyHeal g) none pid hpid hpu] at h
                simp at h
              · have hpu' : (applyHeal g).potions.poison_used = false := by simpa using hpu
                cases hfind : getPlayer? (applyHeal g) pid with
                | none =>
                    rw [witch_poison_notfound (applyHeal g) none pid hpid hpu' hfind] at h
                    simp at h
                | some t =>
                    by_cases hal : (t.status == "alive") = true
                    · rw [witch_poison_go (applyHeal g) none pid t hpid hpu' hfind hal
                           (by simp)] at h
                      obtain ⟨hr, hp, hl, _⟩ := witch_final_ok _ _ _ _ h
                      refine ⟨hp, hl, by rw [hr]; simp [hpt], fun h' => by simp at h'⟩
                    · have hal' : (t.status == "alive") = false := by simpa using hal
                      rw [witch_poison_dead (applyHeal g) none pid t hpid hpu' hfind hal'] at h
                      simp at h
            · have hpt' : pyTruthy pt = false := by simpa using hpt
              rw [witch_poison_skip (applyHeal g) none pt hpt'] at h
              obtain ⟨hr, hp, hl, _⟩ := witch_final_ok _ _ _ _ h
              refine ⟨hp, hl, by rw [hr]; simp [hpt'], fun h' => by simp at h'⟩
          · have hlkf : pyTruthy g.last_killed = false := by simpa using hlkt
            rw [witch_action_novictim g pt hphase hhu' hlkf] at h
            simp at h
  · intro hwf
    rw [witch_action_noheal_go g none hphase]
    rw [witch_poison_skip g g.last_killed none (by simp [pyTruthy])]
    by_cases hlkt : pyTruthy g.last_killed = true
    · obtain ⟨vid, hvid⟩ : ∃ v, g.last_killed = some v := by
        cases hgl : g.last_killed with
        | none => rw [hgl] at hlkt; simp [pyTruthy] at hlkt
        | some v => exact ⟨v, rfl⟩
      have hvne : vid ≠ "" := by
        rw [hvid] at hlkt; simpa [pyTruthy] using hlkt
      cases hfv : getPlayer? g vid with
      | none =>
          have := hwf vid hvid hvne
          rw [hfv] at this
          simp at this
      | some t =>
          rw [hvid, witch_final_kill g vid t hvne hfv]
          rw [witch_final2_kill { g with players := killFirst g.players vid } (some vid)
               vid { t with status := "dead" } hvid hvne
               (by simpa [getPlayer?] using
                 killFirst_find?_eq g.players vid t (by simpa [getPlayer?] using hfv))]
          exact ⟨_, _, rfl, rfl⟩
    · rw [witch_final_none g g.last_killed (by simpa using hlkt)]
      rw [witch_final2_none g g.last_killed (by simpa using hlkt)]
      exact ⟨_, _, rfl, rfl⟩

/-- C4 witness: a pass (`heal=false`, no poison) on a concrete session with
a pending victim completes and advances to `day`. -/
theorem witch_action_day_spec_witness :
    ∃ g' ret, witch_action gWitchW false none = (g', Except.ok ret) ∧ g'.phase = "day" :=
  (witch_action_day_spec gWitchW rfl).2
    (fun vid hv _ => by
      have hvv : "2" = vid := Option.some.inj hv
      subst hvv
      decide)

/-- An erroring run of the finalisation tail of `witch_action` leaves the
game object it was handed unchanged. -/
theorem witch_final2_error_frame (G : Game) (K : Option String) (g' : Game) (e : String)
    (h : witch_final2 G K = (g', Except.error e)) : g' = G := by
  by_cases hlkt : pyTruthy G.last_killed = true
  · obtain ⟨vid, hvid⟩ : ∃ v, G.last_killed = some v := by
      cases hgl : G.last_killed with
      | none => rw [hgl] at hlkt; simp [pyTruthy] at hlkt
      | some v => exact ⟨v, rfl⟩
    have hvne : vid ≠ "" := by
      rw [hvid] at hlkt; simpa [pyTruthy] using hlkt
    cases hq : getPlayer? G vid with
    | none =>
        rw [witch_final2_dangling G K vid hvid hvne hq] at h
        simp only [Prod.mk.injEq] at h
        exact h.1.symm
    | some q =>
        rw [witch_final2_kill G K vid q hvid hvne hq] at h
        simp at h
  · rw [witch_final2_none G K (by simpa using hlkt)] at h
    simp at h

/-- An erroring run of the `if killed_id:` stage, when `killed_id` is the
pending kill itself or `none` (as in every call of `witch_action`), leaves
the game object unchanged. -/
theorem witch_final_error_frame (G : Game) (K : Option String) (g' : Game) (e : String)
    (hK : K = G.last_killed ∨ K = none)
    (h : witch_final G K = (g', Except.error e)) : g' = G := by
  by_cases hkt : pyTruthy K = true
  · obtain ⟨kid, rfl⟩ : ∃ k, K = some k := by
      cases K with
      | none => simp [pyTruthy] at hkt
      | some k => exact ⟨k, rfl⟩
    have hkne : kid ≠ "" := by simpa [pyTruthy] using hkt
    cases hfk : getPlayer? G kid with
    | none =>
        rw [witch_final_dangling G kid hkne hfk] at h
        simp only [Prod.mk.injEq] at h
        exact h.1.symm
    | some t =>
        have hlk : G.last_killed = some kid := by
          cases hK with
          | inl hh => exact hh.symm
          | inr hh => cases hh
        rw [witch_final_kill G kid t hkne hfk] at h
        rw [witch_final2_kill { G with players := killFirst G.players kid } (some kid)
             kid { t with status := "dead" } hlk hkne
             (by simpa [getPlayer?] using
               killFirst_find?_eq G.players kid t (by simpa [getPlayer?] using hfk))] at h
        simp at h
  · rw [witch_final_none G K (by simpa using hkt)] at h
    exact witch_final2_error_frame G K g' e h

/-- An erroring run of the poison stage, when `killed_id` is the pending
kill or `none`, leaves the game unchanged except possibly for the effects
of a poison that was validated before the failure; the phase is never
modified. -/
theorem witch_poison_error_frame (G : Game) (K : Option String) (pt : Option String)
    (g' : Game) (e : String)
    (hK : K = G.last_killed ∨ K = none)
    (h : witch_poison G K pt = (g', Except.error e)) :
    g'.phase = G.phase ∧
    (g' = G ∨ ∃ pid, pt = some pid ∧ g' = applyPoison G pid) := by
  by_cases hpt : pyTruthy pt = true
  · obtain ⟨pid, rfl⟩ : ∃ pid, pt = some pid := by
      cases pt with
      | none => simp [pyTruthy] at hpt
      | some s => exact ⟨s, rfl⟩
    have hpid : pid ≠ "" := by simpa [pyTruthy] using hpt
    by_cases hpu : G.potions.poison_used = true
    · rw [witch_poison_used G K pid hpid hpu] at h
      simp only [Prod.mk.injEq] at h
      exact ⟨h.1.symm ▸ rfl, Or.inl h.1.symm⟩
    · have hpu' : G.potions.poison_used = false := by simpa using hpu
      cases hfind : getPlayer? G pid with
      | none =>
          rw [witch_poison_notfound G K pid hpid hpu' hfind] at h
          simp only [Prod.mk.injEq] at h
          exact ⟨h.1.symm ▸ rfl, Or.inl h.1.symm⟩
      | some t =>
          by_cases hal : (t.status == "alive") = true
          · by_cases hdup : K = some pid
            · rw [witch_poison_dup G K pid t hpid hpu' hfind hal hdup] at h
              simp only [Prod.mk.injEq] at h
              exact ⟨h.1.symm ▸ rfl, Or.inl h.1.symm⟩
            · rw [witch_poison_go G K pid t hpid hpu' hfind hal hdup] at h
              rw [witch_final_kill (applyPoison G pid) pid { t with status := "dead" } hpid
                   (by simpa [applyPoison, getPlayer?] using
                     killFirst_find?_eq G.players pid t (by simpa [getPlayer?] using hfind))] at h
              have hrec :
                  ({ applyPoison G pid with
                      players := killFirst (applyPoison G pid).players pid } : Game) =
                    applyPoison G pid := by
                simp [applyPoison, killFirst_killFirst]
              rw [hrec] at h
              have := witch_final2_error_frame (applyPoison G pid) (some pid) g' e h
              subst this
              exact ⟨rfl, Or.inr ⟨pid, rfl, rfl⟩⟩
          · have hal' : (t.status == "alive") = false := by simpa using hal
            rw [witch_poison_dead G K pid t hpid hpu' hfind hal'] at h
            simp only [Prod.mk.injEq] at h
            exact ⟨h.1.symm ▸ rfl, Or.inl h.1.symm⟩
  · rw [witch_poison_skip G K pt (by simpa using hpt)] at h
    have := witch_final_error_frame G K g' e hK h
    subst this
    exact ⟨rfl, Or.inl rfl⟩

/-- C1 counterexample: in `night_witch` with the poison potion already used,
calling `witch_action` with `heal=true` and a poison target fails with the
named `PotionAlreadyUsed` domain error, yet the session object it was
applied to has been mutated: `last_killed` has been cleared and the heal
potion flag set. -/
theorem witch_action_error_mutates :
    (witch_action gC1 true (some "p2")).2 =
      Except.error "La potion de poison a déjà été utilisée." ∧
    (witch_action gC1 true (some "p2")).1 ≠ gC1 ∧
    (witch_action gC1 true (some "p2")).1.potions.heal_used = true ∧
    (witch_action gC1 true (some "p2")).1.last_killed = none ∧
    gC1.potions.heal_used = false ∧ gC1.last_killed = some "p1" ∧
    gC1.phase = "night_witch" := by decide

/-- Helper: full characterisation of the state a failing `witch_action`
leaves behind. -/
theorem witch_action_error_shape (g : Game) (heal : Bool) (pt : Option String)
    (g' : Game) (e : String)
    (h : witch_action g heal pt = (g', Except.error e)) :
    g'.phase = g.phase ∧
    (g' = g ∨ (heal = true ∧ g' = applyHeal g) ∨
     ∃ pid, pt = some pid ∧
       (g' = applyPoison g pid ∨ (heal = true ∧ g' = applyPoison (applyHeal g) pid))) := by
  by_cases hph : g.phase = "night_witch"
  · cases heal with
    | false =>
        rw [witch_action_noheal_go g pt hph] at h
        obtain ⟨hphase, hdisj⟩ := witch_poison_error_frame g g.last_killed pt g' e (Or.inl rfl) h
        refine ⟨hphase, ?_⟩
        rcases hdisj with hg | ⟨pid, hpt, hg⟩
        · exact Or.inl hg
        · exact Or.inr (Or.inr ⟨pid, hpt, Or.inl hg⟩)
    | true =>
        by_cases hhu : g.potions.heal_used = true
        · rw [witch_action_healused g pt hph hhu] at h
          simp only [Prod.mk.injEq] at h
          exact ⟨h.1.symm ▸ rfl, Or.inl h.1.symm⟩
        · have hhu' : g.potions.heal_used = false := by simpa using hhu
          by_cases hlkt : pyTruthy g.last_killed = true
          · rw [witch_action_heal_go g pt hph hhu' hlkt] at h
            obtain ⟨hphase, hdisj⟩ :=
              witch_poison_error_frame (applyHeal g) none pt g' e (Or.inr rfl) h
            refine ⟨by rw [hphase]; rfl, ?_⟩
            rcases hdisj with hg | ⟨pid, hpt, hg⟩
            · exact Or.inr (Or.inl ⟨rfl, hg⟩)
            · exact Or.inr (Or.inr ⟨pid, hpt, Or.inr ⟨rfl, hg⟩⟩)
          · have hlkf : pyTruthy g.last_killed = false := by simpa using hlkt
            rw [witch_action_novictim g pt hph hhu' hlkf] at h
            simp only [Prod.mk.injEq] at h
            exact ⟨h.1.symm ▸ rfl, Or.inl h.1.symm⟩
  · rw [witch_action_notphase g heal pt hph] at h
    simp only [Prod.mk.injEq] at h
    exact ⟨h.1.symm ▸ rfl, Or.inl h.1.symm⟩

/-- C1 amended: when `witch_action` fails with one of its named domain
errors, the phase is never modified and no mutation beyond the sub-actions
validated before the failure survives: the state is unchanged, or (heal
accepted, then a later check failed) exactly `last_killed` is cleared and
`healUsed` set, or (poison accepted, then the final lookup of a dangling
pending victim failed) additionally exactly the poison target is dead and
`poisonUsed` set.  Nothing is persisted on any failing path. -/
theorem witch_action_error_frame (g : Game) (heal : Bool) (pt : Option String)
    (g' : Game) (e : String)
    (h : witch_action g heal pt = (g', Except.error e)) :
    g'.phase = g.phase ∧
    (g' = g ∨ (heal = true ∧ g' = applyHeal g) ∨
     ∃ pid, pt = some pid ∧
       (g' = applyPoison g pid ∨ (heal = true ∧ g' = applyPoison (applyHeal g) pid))) :=
  witch_action_error_shape g heal pt g' e h

/-- C1 witness (amended claim): applied to the counterexample state, the
failing call keeps the phase and lands exactly on the heal-applied state. -/
theorem witch_action_error_frame_witness :
    (witch_action gC1 true (some "p2")).1.phase = gC1.phase ∧
    ((witch_action gC1 true (some "p2")).1 = gC1 ∨
     (true = true ∧ (witch_action gC1 true (some "p2")).1 = applyHeal gC1) ∨
     ∃ pid, (some "p2" : Option String) = some pid ∧
       ((witch_action gC1 true (some "p2")).1 = applyPoison gC1 pid ∨
        (true = true ∧ (witch_action gC1 true (some "p2")).1 = applyPoison (applyHeal gC1) pid))) :=
  witch_action_error_frame gC1 true (some "p2") (witch_action gC1 true (some "p2")).1
    "La potion de poison a déjà été utilisée." (by decide)

/-- C2 counterexample: with the session in `night_seer`, the seer dead and
every wolf dead, dispatching the witch action does not advance past the
dead roles and perform the witch action — it fails with the night_seer
phase error and leaves the session unchanged. -/
theorem tool_witch_action_no_cascade :
    gC2.phase = "night_seer" ∧
    hasAliveSeer gC2 = false ∧ hasAliveWolf gC2 = false ∧
    tool_witch_action gC2 false none =
      (gC2, Except.error "La Voyante doit d'abord jouer. Utilise 'run_night_sequence' pour orchestrer la nuit dans l'ordre.") := by
  decide

/-- C2 amended: the dispatcher's dead-role skip is a single step inside
each tool, not a cascade: `tool_wolves_vote` in `night_seer` with the seer
dead advances to `night_wolves` and performs the vote, and
`tool_witch_action` in `night_wolves` with all wolves dead advances to
`night_witch` and performs the witch action (behaving exactly as if
dispatched in the skipped-to phase); but `tool_witch_action` dispatched in
`night_seer` always fails, even when the seer and all wolves are dead. -/
theorem dispatcher_skip_single_step (g : Game) (heal : Bool) (pt : Option String)
    (name : String) :
    (g.phase = "night_seer" →
      tool_witch_action g heal pt =
        (g, Except.error "La Voyante doit d'abord jouer. Utilise 'run_night_sequence' pour orchestrer la nuit dans l'ordre.")) ∧
    (g.phase = "night_wolves" → hasAliveWolf g = false →
      tool_witch_action g heal pt = tool_witch_core { g with phase := "night_witch" } heal pt ∧
      tool_witch_action { g with phase := "night_witch" } heal pt =
        tool_witch_core { g with phase := "night_witch" } heal pt) ∧
    (g.phase = "night_seer" → hasAliveSeer g = false →
      tool_wolves_vote g name = tool_wolves_core { g with phase := "night_wolves" } name) := by
  refine ⟨fun hphase => ?_, fun hphase hw => ⟨?_, ?_⟩, fun hphase hs => ?_⟩
  · simp [tool_witch_action, hphase]
  · simp [tool_witch_action, hphase, hw]
  · simp [tool_witch_action]
  · simp [tool_wolves_vote, hphase, hs]

/-- C2 witness (amended claim): in `night_wolves` with every wolf dead, the
witch tool behaves exactly as the witch-phase tool body on the advanced
session. -/
theorem dispatcher_skip_single_step_witness :
    tool_witch_action gC2W false none =
      tool_witch_core { gC2W with phase := "night_witch" } false none ∧
    tool_witch_action { gC2W with phase := "night_witch" } false none =
      tool_witch_core { gC2W with phase := "night_witch" } false none :=
  (dispatcher_skip_single_step gC2W false none "").2.1 rfl (by decide)

-- Status-evolution machinery: across any single engine call a player
-- record either stays as it is or has its status set to `"dead"`.

theorem evol_refl (ps : List Player) :
    List.Forall₂ (fun p q => q = p ∨ q = { p with status := "dead" }) ps ps := by
  induction ps with
  | nil => exact List.Forall₂.nil
  | cons p rest ih => exact List.Forall₂.cons (Or.inl rfl) ih

theorem evol_killFirst (ps : List Player) (pid : String) :
    List.Forall₂ (fun p q => q = p ∨ q = { p with status := "dead" }) ps (killFirst ps pid) := by
  induction ps with
  | nil => exact List.Forall₂.nil
  | cons p rest ih =>
      by_cases hp : (p.id == pid) = true
      · simp only [killFirst, if_pos hp]
        exact List.Forall₂.cons (Or.inr rfl) (evol_refl rest)
      · have hp' : (p.id == pid) = false := by simpa using hp
        simp only [killFirst, hp', Bool.false_eq_true, if_false]
        exact List.Forall₂.cons (Or.inl rfl) ih

theorem evol_trans (ps qs rs : List Player)
    (h1 : List.Forall₂ (fun p q => q = p ∨ q = { p with status := "dead" }) ps qs)
    (h2 : List.Forall₂ (fun p q => q = p ∨ q = { p with status := "dead" }) qs rs) :
    List.Forall₂ (fun p q => q = p ∨ q = { p with status := "dead" }) ps rs := by
  induction h1 generalizing rs with
  | nil => cases h2; exact List.Forall₂.nil
  | cons hpq h1' ih =>
      cases h2 with
      | cons hqr h2' =>
          refine List.Forall₂.cons ?_ (ih _ h2')
          rcases hpq with rfl | rfl
          · exact hqr
          · rcases hqr with rfl | rfl
            · exact Or.inr rfl
            · exact Or.inr rfl

theorem evol_id_map (ps qs : List Player)
    (h : List.Forall₂ (fun p q => q = p ∨ q = { p with status := "dead" }) ps qs) :
    qs.map (fun p => p.id) = ps.map (fun p => p.id) := by
  induction h with
  | nil => rfl
  | cons hpq h' ih =>
      simp only [List.map_cons, ih]
      rcases hpq with rfl | rfl <;> rfl

theorem evol_mem (ps qs : List Player) (q : Player)
    (h : List.Forall₂ (fun p q => q = p ∨ q = { p with status := "dead" }) ps qs)
    (hq : q ∈ qs) :
    ∃ p ∈ ps, (q = p ∨ q = { p with status := "dead" }) := by
  induction h with
  | nil => cases hq
  | cons hpq h' ih =>
      rcases List.mem_cons.mp hq with rfl | hq'
      · exact ⟨_, List.mem_cons_self _ _, hpq⟩
      · obtain ⟨p0, hp0, hr⟩ := ih hq'
        exact ⟨p0, List.mem_cons_of_mem _ hp0, hr⟩

theorem nodup_id_inj (ps : List Player)
    (h : (ps.map (fun p => p.id)).Nodup) :
    ∀ p ∈ ps, ∀ q ∈ ps, p.id = q.id → p = q := by
  induction ps with
  | nil => intro p hp; cases hp
  | cons a rest ih =>
      simp only [List.map_cons, List.nodup_cons] at h
      intro p hp q hq hid
      rcases List.mem_cons.mp hp with rfl | hp' <;>
        rcases List.mem_cons.mp hq with rfl | hq'
      · rfl
      · exfalso
        have hm : q.id ∈ rest.map (fun r => r.id) := List.mem_map_of_mem _ hq'
        rw [← hid] at hm
        exact h.1 hm
      · exfalso
        have hm : p.id ∈ rest.map (fun r => r.id) := List.mem_map_of_mem _ hp'
        rw [hid] at hm
        exact h.1 hm
      · exact ih h.2 p hp' q hq' hid

theorem witch_final2_players_evol (G : Game) (K : Option String) :
    List.Forall₂ (fun p q => q = p ∨ q = { p with status := "dead" })
      G.players (witch_final2 G K).1.players := by
  unfold witch_final2
  split
  · split
    · exact evol_refl G.players
    · exact evol_killFirst G.players _
  · exact evol_refl G.players

theorem witch_final_players_evol (G : Game) (K : Option String) :
    List.Forall₂ (fun p q => q = p ∨ q = { p with status := "dead" })
      G.players (witch_final G K).1.players := by
  unfold witch_final
  split
  · split
    · exact evol_refl G.players
    · exact evol_trans _ _ _ (evol_killFirst G.players _)
        (witch_final2_players_evol { G with players := killFirst G.players (K.getD "") } K)
  · exact witch_final2_players_evol G K

theorem witch_poison_players_evol (G : Game) (K pt : Option String) :
    List.Forall₂ (fun p q => q = p ∨ q = { p with status := "dead" })
      G.players (witch_poison G K pt).1.players := by
  by_cases hpt : pyTruthy pt = true
  · obtain ⟨pid, rfl⟩ : ∃ pid, pt = some pid := by
      cases pt with
      | none => simp [pyTruthy] at hpt
      | some s => exact ⟨s, rfl⟩
    have hpid : pid ≠ "" := by simpa [pyTruthy] using hpt
    by_cases hpu : G.potions.poison_used = true
    · rw [witch_poison_used G K pid hpid hpu]
      exact evol_refl G.players
    · have hpu' : G.potions.poison_used = false := by simpa using hpu
      cases hfind : getPlayer? G pid with
      | none =>
          rw [witch_poison_notfound G K pid hpid hpu' hfind]
          exact evol_refl G.players
      | some t =>
          by_cases hal : (t.status == "alive") = true
          · by_cases hdup : K = some pid
            · rw [witch_poison_dup G K pid t hpid hpu' hfind hal hdup]
              exact evol_refl G.players
            · rw [witch_poison_go G K pid t hpid hpu' hfind hal hdup]
              exact evol_trans _ _ _ (evol_killFirst G.players pid)
                (witch_final_players_evol (applyPoison G pid) (some pid))
          · have hal' : (t.status == "alive") = false := by simpa using hal
            rw [witch_poison_dead G K pid t hpid hpu' hfind hal']
            exact evol_refl G.players
  · rw [witch_poison_skip G K pt (by simpa using hpt)]
    exact witch_final_players_evol G K

theorem witch_action_players_evol (g : Game) (heal : Bool) (pt : Option String) :
    List.Forall₂ (fun p q => q = p ∨ q = { p with status := "dead" })
      g.players (witch_action g heal pt).1.players := by
  unfold witch_action
  split
  · exact evol_refl g.players
  · split
    · exact evol_refl g.players
    · split
      · exact evol_refl g.players
      · by_cases hh : heal = true
        · simp only [hh, if_pos]
          exact witch_poison_players_evol
            { g with last_killed := none,
                     potions := { g.potions with heal_used := true } } none pt
        · have hh' : heal = false := by simpa using hh
          simp only [hh', Bool.false_eq_true, if_false]
          exact witch_poison_players_evol g g.last_killed pt

theorem finalize_state_players (g : Game) : (finalize_state g).players = g.players := by
  unfold finalize_state
  split <;> rfl

theorem finalize_state_phase (g : Game) :
    (finalize_state g).phase = g.phase ∨ (finalize_state g).phase = "ended" := by
  unfold finalize_state
  split
  · exact Or.inr rfl
  · exact Or.inl rfl

theorem assign_roles_ok_shape (g : Game) (roleOf : String → String) (g' : Game)
    (h : assign_roles_with g roleOf = (g', Except.ok ())) :
    g.phase = "lobby" ∧ g'.phase = "night_seer" ∧
    g'.players = g.players.map (fun p => { p with role := roleOf p.id, status := "alive" }) := by
  unfold assign_roles_with at h
  split at h
  · simp at h
  · rename_i hph
    have hlob : g.phase = "lobby" := by simpa using hph
    simp only [Prod.mk.injEq] at h
    exact ⟨hlob, h.1.symm ▸ rfl, h.1.symm ▸ rfl⟩

theorem seer_peek_ok_shape (g : Game) (tid : String) (g' : Game) (r : String)
    (h : seer_peek g tid = (g', Except.ok r)) :
    g'.phase = "night_wolves" ∧ g'.players = g.players := by
  unfold seer_peek at h
  split at h
  · simp at h
  · split at h
    · simp at h
    · split at h
      · simp at h
      · simp only [Prod.mk.injEq] at h
        exact ⟨h.1.symm ▸ rfl, h.1.symm ▸ rfl⟩

theorem wolves_vote_ok_shape (g : Game) (tid : String) (g' : Game) (r : String)
    (h : wolves_vote g tid = (g', Except.ok r)) :
    g'.phase = "night_witch" ∧ g'.players = g.players := by
  unfold wolves_vote at h
  split at h
  · simp at h
  · split at h
    · simp at h
    · split at h
      · simp at h
      · simp only [Prod.mk.injEq] at h
        exact ⟨h.1.symm ▸ rfl, h.1.symm ▸ rfl⟩

theorem start_next_night_ok_shape (g : Game) (g' : Game)
    (h : start_next_night g = (g', Except.ok ())) :
    g'.phase = "night_seer" ∧ g'.players = g.players := by
  unfold start_next_night at h
  split at h
  · simp at h
  · simp only [Prod.mk.injEq] at h
    exact ⟨h.1.symm ▸ rfl, h.1.symm ▸ rfl⟩

theorem witch_poison_ok_phase (G : Game) (K pt : Option String) (g' : Game)
    (r : Option String)
    (h : witch_poison G K pt = (g', Except.ok r)) : g'.phase = "day" := by
  by_cases hpt : pyTruthy pt = true
  · obtain ⟨pid, rfl⟩ : ∃ pid, pt = some pid := by
      cases pt with
      | none => simp [pyTruthy] at hpt
      | some s => exact ⟨s, rfl⟩
    have hpid : pid ≠ "" := by simpa [pyTruthy] using hpt
    by_cases hpu : G.potions.poison_used = true
    · rw [witch_poison_used G K pid hpid hpu] at h
      simp at h
    · have hpu' : G.potions.poison_used = false := by simpa using hpu
      cases hfind : getPlayer? G pid with
      | none =>
          rw [witch_poison_notfound G K pid hpid hpu' hfind] at h
          simp at h
      | some t =>
          by_cases hal : (t.status == "alive") = true
          · by_cases hdup : K = some pid
            · rw [witch_poison_dup G K pid t hpid hpu' hfind hal hdup] at h
              simp at h
            · rw [witch_poison_go G K pid t hpid hpu' hfind hal hdup] at h
              exact (witch_final_ok _ _ _ _ h).2.1
          · have hal' : (t.status == "alive") = false := by simpa using hal
            rw [witch_poison_dead G K pid t hpid hpu' hfind hal'] at h
            simp at h
  · rw [witch_poison_skip G K pt (by simpa using hpt)] at h
    exact (witch_final_ok _ _ _ _ h).2.1

theorem witch_action_ok_phase (g : Game) (heal : Bool) (pt : Option String)
    (g' : Game) (r : Option String)
    (h : witch_action g heal pt = (g', Except.ok r)) : g'.phase = "day" := by
  by_cases hph : g.phase = "night_witch"
  · cases heal with
    | false =>
        rw [witch_action_noheal_go g pt hph] at h
        exact witch_poison_ok_phase _ _ _ _ _ h
    | true =>
        by_cases hhu : g.potions.heal_used = true
        · rw [witch_action_healused g pt hph hhu] at h
          simp at h
        · have hhu' : g.potions.heal_used = false := by simpa using hhu
          by_cases hlkt : pyTruthy g.last_killed = true
          · rw [witch_action_heal_go g pt hph hhu' hlkt] at h
            exact witch_poison_ok_phase _ _ _ _ _ h
          · rw [witch_action_novictim g pt hph hhu' (by simpa using hlkt)] at h
            simp at h
  · rw [witch_action_notphase g heal pt hph] at h
    simp at h

/-- Invariant of reachable sessions: player ids are pairwise distinct
(`uuid7` freshness), and in the lobby every player is alive (deaths only
happen from `night_witch`, which is never followed by `lobby` again). -/
theorem reachable_inv (g : Game) (h : Reachable g) :
    (g.players.map (fun p => p.id)).Nodup ∧
    (g.phase = "lobby" → ∀ p ∈ g.players, p.status = "alive") := by
  induction h with
  | init code => simp [initGame]
  | step hr hst ih =>
      rename_i g0 g1
      obtain ⟨hnd, hlb⟩ := ih
      cases hst with
      | addPlayer pid pname hfresh =>
          constructor
          · rw [List.map_append]
            rw [List.nodup_append]
            refine ⟨hnd, List.nodup_singleton _, ?_⟩
            intro a ha hb
            simp only [List.map_cons, List.map_nil, List.mem_singleton] at hb
            subst hb
            obtain ⟨p, hp, hpe⟩ := List.mem_map.mp ha
            exact hfresh p hp hpe
          · intro hlobby q hq
            rcases List.mem_append.mp hq with hq' | hq'
            · exact hlb hlobby q hq'
            · simp only [List.mem_singleton] at hq'
              subst hq'
              rfl
      | removePlayer pid =>
          constructor
          · exact ((List.filter_sublist _).map _).nodup hnd
          · intro hlobby q hq
            exact hlb hlobby q (List.mem_of_mem_filter hq)
      | assignRoles roleOf ga hok =>
          obtain ⟨hlob, hpha, hpla⟩ := assign_roles_ok_shape g0 roleOf ga hok
          constructor
          · rw [finalize_state_players, hpla, List.map_map]
            exact hnd
          · intro hlobby
            exfalso
            rcases finalize_state_phase ga with hph | hph <;> rw [hlobby] at hph
            · rw [hpha] at hph
              exact absurd hph (by decide)
            · exact absurd hph (by decide)
      | seerPeek tid ga r hok =>
          obtain ⟨hpha, hpla⟩ := seer_peek_ok_shape g0 tid ga r hok
          constructor
          · rw [finalize_state_players, hpla]
            exact hnd
          · intro hlobby
            exfalso
            rcases finalize_state_phase ga with hph | hph <;> rw [hlobby] at hph
            · rw [hpha] at hph
              exact absurd hph (by decide)
            · exact absurd hph (by decide)
      | wolvesVote tid ga r hok =>
          obtain ⟨hpha, hpla⟩ := wolves_vote_ok_shape g0 tid ga r hok
          constructor
          · rw [finalize_state_players, hpla]
            exact hnd
          · intro hlobby
            exfalso
            rcases finalize_state_phase ga with hph | hph <;> rw [hlobby] at hph
            · rw [hpha] at hph
              exact absurd hph (by decide)
            · exact absurd hph (by decide)
      | witchAct heal pt ga r hok =>
          constructor
          · rw [finalize_state_players]
            have hev := witch_action_players_evol g0 heal pt
            rw [hok] at hev
            simp only at hev
            rw [evol_id_map g0.players ga.players hev]
            exact hnd
          · intro hlobby
            exfalso
            have hpha := witch_action_ok_phase g0 heal pt ga r hok
            rcases finalize_state_phase ga with hph | hph <;> rw [hlobby] at hph
            · rw [hpha] at hph
              exact absurd hph (by decide)
            · exact absurd hph (by decide)
      | witchFail heal pt ga e hok =>
          have hphase : g1.phase = g0.phase := (witch_action_error_shape g0 heal pt g1 e hok).1
          constructor
          · have hev := witch_action_players_evol g0 heal pt
            rw [hok] at hev
            simp only at hev
            rw [evol_id_map g0.players g1.players hev]
            exact hnd
          · intro hlobby
            by_cases hph : g0.phase = "night_witch"
            · rw [hphase, hph] at hlobby
              exact absurd hlobby (by decide)
            · have heq := witch_action_notphase g0 heal pt hph
              rw [heq] at hok
              simp only [Prod.mk.injEq] at hok
              obtain ⟨h1, _⟩ := hok
              subst h1
              rw [hphase] at hlobby
              exact hlb hlobby
      | startNight ga hok =>
          obtain ⟨hpha, hpla⟩ := start_next_night_ok_shape g0 ga hok
          constructor
          · rw [finalize_state_players, hpla]
            exact hnd
          · intro hlobby
            exfalso
            rcases finalize_state_phase ga with hph | hph <;> rw [hlobby] at hph
            · rw [hpha] at hph
              exact absurd hph (by decide)
            · exact absurd hph (by decide)
      | skipSeer hph hs =>
          exact ⟨hnd, fun hlobby => by simp at hlobby⟩
      | skipWolves hph hw =>
          exact ⟨hnd, fun hlobby => by simp at hlobby⟩

/-- C8: in every session state reachable from a freshly created session by
dispatcher commands, death is terminal: if a player is dead, no successful
dispatcher operation (including `assign_roles`, which sets every player's
status to alive but is only legal in the lobby, where nobody is dead) ever
yields a state in which a player with that id is alive. -/
theorem dead_players_stay_dead (g g' : Game) (hr : Reachable g) (hs : Step g g') :
    ∀ p ∈ g.players, p.status = "dead" →
      ∀ q ∈ g'.players, q.id = p.id → q.status ≠ "alive" := by
  obtain ⟨hnd, hlb⟩ := reachable_inv g hr
  intro p hp hdead q hq hid hal
  cases hs with
  | addPlayer pid pname hfresh =>
      rcases List.mem_append.mp hq with hq' | hq'
      · have hqp : q = p := nodup_id_inj g.players hnd q hq' p hp hid
        rw [hqp, hdead] at hal
        exact absurd hal (by decide)
      · simp only [List.mem_singleton] at hq'
        subst hq'
        exact hfresh p hp hid.symm
  | removePlayer pid =>
      have hq' := List.mem_of_mem_filter hq
      have hqp : q = p := nodup_id_inj g.players hnd q hq' p hp hid
      rw [hqp, hdead] at hal
      exact absurd hal (by decide)
  | assignRoles roleOf ga hok =>
      obtain ⟨hlob, _, _⟩ := assign_roles_ok_shape g roleOf ga hok
      have hpal := hlb hlob p hp
      rw [hdead] at hpal
      exact absurd hpal (by decide)
  | seerPeek tid ga r hok =>
      obtain ⟨_, hpla⟩ := seer_peek_ok_shape g tid ga r hok
      rw [finalize_state_players, hpla] at hq
      have hqp : q = p := nodup_id_inj g.players hnd q hq p hp hid
      rw [hqp, hdead] at hal
      exact absurd hal (by decide)
  | wolvesVote tid ga r hok =>
      obtain ⟨_, hpla⟩ := wolves_vote_ok_shape g tid ga r hok
      rw [finalize_state_players, hpla] at hq
      have hqp : q = p := nodup_id_inj g.players hnd q hq p hp hid
      rw [hqp, hdead] at hal
      exact absurd hal (by decide)
  | witchAct heal pt ga r hok =>
      rw [finalize_state_players] at hq
      have hev := witch_action_players_evol g heal pt
      rw [hok] at hev
      simp only at hev
      obtain ⟨p0, hp0, hr0⟩ := evol_mem g.players ga.players q hev hq
      have hp0id : q.id = p0.id := by rcases hr0 with rfl | rfl <;> rfl
      have hqp : p0 = p := nodup_id_inj g.players hnd p0 hp0 p hp (by rw [← hp0id, hid])
      subst hqp
      rcases hr0 with rfl | rfl
      · rw [hdead] at hal
        exact absurd hal (by decide)
      · simp at hal
  | witchFail heal pt ga e hok =>
      have hev := witch_action_players_evol g heal pt
      rw [hok] at hev
      simp only at hev
      obtain ⟨p0, hp0, hr0⟩ := evol_mem g.players g'.players q hev hq
      have hp0id : q.id = p0.id := by rcases hr0 with rfl | rfl <;> rfl
      have hqp : p0 = p := nodup_id_inj g.players hnd p0 hp0 p hp (by rw [← hp0id, hid])
      subst hqp
      rcases hr0 with rfl | rfl
      · rw [hdead] at hal
        exact absurd hal (by decide)
      · simp at hal
  | startNight ga hok =>
      obtain ⟨_, hpla⟩ := start_next_night_ok_shape g ga hok
      rw [finalize_state_players, hpla] at hq
      have hqp : q = p := nodup_id_inj g.players hnd q hq p hp hid
      rw [hqp, hdead] at hal
      exact absurd hal (by decide)
  | skipSeer hph hs =>
      have hqp : q = p := nodup_id_inj g.players hnd q hq p hp hid
      rw [hqp, hdead] at hal
      exact absurd hal (by decide)
  | skipWolves hph hw =>
      have hqp : q = p := nodup_id_inj g.players hnd q hq p hp hid
      rw [hqp, hdead] at hal
      exact absurd hal (by decide)

/-- The witness command history is indeed a reachable session. -/
theorem gB9_reachable : Reachable (finalize_state gB9) := by
  have h0 : Reachable gB := Reachable.init "ABCDEF"
  have h1 : Reachable gB1 := Reachable.step h0 (Step.addPlayer gB "1" "Alice" (by decide))
  have h2 : Reachable gB2 := Reachable.step h1 (Step.addPlayer gB1 "2" "Bob" (by decide))
  have h3 : Reachable gB3 := Reachable.step h2 (Step.addPlayer gB2 "3" "Carol" (by decide))
  have h4 : Reachable gB4 := Reachable.step h3 (Step.addPlayer gB3 "4" "Dan" (by decide))
  have h5 : Reachable gB5 := Reachable.step h4 (Step.addPlayer gB4 "5" "Eve" (by decide))
  have h6 : Reachable (finalize_state gB6) :=
    Reachable.step h5 (Step.assignRoles gB5 roleOfW gB6 (by decide))
  have h7 : Reachable (finalize_state gB7) :=
    Reachable.step h6 (Step.seerPeek (finalize_state gB6) "2" gB7 "villager" (by decide))
  have h8 : Reachable (finalize_state gB8) :=
    Reachable.step h7 (Step.wolvesVote (finalize_state gB7) "2" gB8 "2" (by decide))
  exact Reachable.step h8
    (Step.witchAct (finalize_state gB8) false none gB9 (some "2") (by decide))

/-- C8 witness: the theorem applied along the concrete command history —
after the night that killed `"2"`, starting the next night (one more
dispatcher command) keeps the player record carrying id `"2"` non-alive. -/
theorem dead_players_stay_dead_witness :
    (⟨"2", "Bob", "villager", "dead"⟩ : Player).status ≠ "alive" :=
  dead_players_stay_dead (finalize_state gB9) (finalize_state gB10)
    gB9_reachable
    (Step.startNight (finalize_state gB9) gB10 (by decide))
    ⟨"2", "Bob", "villager", "dead"⟩ (by decide) rfl
    ⟨"2", "Bob", "villager", "dead"⟩ (by decide) rfl
